import Mathlib

/-!
# EVShield `MindsensorsUI`: the touch-coordinate pipeline

A shallow embedding of `src/MindsensorsUI.cpp` (`distanceToLine`, `getReading`,
`getTouchscreenValues`, `TS_X`, `TS_Y`, `isTouched`, `checkButton`) and the
properties of it that the specification states.

Modelling conventions.

* `uint16_t` values are natural numbers; a value is a genuine `uint16_t` when it
  is `< 65536` (`IsU16`).  Every store into a `uint16_t` goes through
  `toUInt16`, reduction modulo `2^16`.
* `int` is 32 bits wide (the ESP8266 target the source is written for).  Every
  `int` operation of the source is an operation on `Int` followed by
  `wrapInt32`, the two's-complement reduction to `[-2^31, 2^31)`: signed
  overflow (undefined in C++) is modelled as wrap-around.
* The raw sampler (`RAW_X`, `RAW_Y`) is an input: each call of `getReading`
  consumes one raw sample `(x, y)`, each call of `getTouchscreenValues` two.
* `double` arithmetic is modelled exactly (no rounding error).  The only
  `double` values the source forms have the shape `num / (den * sqrt rad)`
  with integers `num`, `den`, `rad`; `Dbl` stores these three integers, and
  the truncation of such a value to an integer is computed with the integer
  square root `isqrt` (proved equal to `Nat.sqrt`).  A conversion to `uint16_t` of a value outside `[0, 65535]`
  (undefined in C++) is modelled by truncation followed by reduction modulo
  `2^16`.
* The source rounds every `double` operation to binary64, so a stored
  intermediate can be one less than the exact model's when the exact value is
  a whole number: at the example calibration and the raw sample (500,510) the
  source evaluates `410.0 / 800 * 240` to `122.99999999999999` and stores 122,
  where the exact value is 123.  The general theorems below therefore use only
  facts that rounding does not change: that a stored intermediate is a
  `uint16_t`, and that a numerator of 0 gives the intermediate 0.  The
  concrete inputs of the closed statements are ones at which binary64 and the
  exact model store the same four intermediates.
-/

namespace EVShield

/-! ## Machine integers -/

/-- A natural number that fits in a `uint16_t`. -/
def IsU16 (n : Nat) : Prop := n < 65536

instance (n : Nat) : Decidable (IsU16 n) := by unfold IsU16; infer_instance

/-- Two's-complement reduction of an integer to the range of a 32-bit `int`. -/
def wrapInt32 (z : Int) : Int :=
  if (z % 4294967296).toNat < 2147483648 then z % 4294967296 else z % 4294967296 - 4294967296

/-- Conversion of an integer to `uint16_t`. -/
def toUInt16 (z : Int) : Nat := (z % 65536).toNat

/-- The `int` sum `a + b`. -/
def add32 (a b : Int) : Int := wrapInt32 (a + b)

/-- The `int` difference `a - b`. -/
def sub32 (a b : Int) : Int := wrapInt32 (a - b)

/-- The `int` product `a * b`. -/
def mul32 (a b : Int) : Int := wrapInt32 (a * b)

/-- The `int` quotient `a / b`, rounded toward zero. -/
def div32 (a b : Int) : Int := wrapInt32 (Int.tdiv a b)

/-- The result of `abs` on an `int`. -/
def abs32 (a : Int) : Int := wrapInt32 (a.natAbs : Int)

/-! ## Exact `double` values -/

/-- Integer square root with a recursion bound: `floor (sqrt n)` from
`floor (sqrt (n / 4))`. -/
def isqrtFuel : Nat → Nat → Nat
  | 0, _ => 0
  | fuel + 1, n =>
    if n = 0 then 0
    else
      let r := 2 * isqrtFuel fuel (n / 4)
      if (r + 1) * (r + 1) ≤ n then r + 1 else r

/-- Integer square root, `floor (sqrt n)`. -/
def isqrt (n : Nat) : Nat := isqrtFuel n n

/-- The `double` value `num / (den * sqrt rad)`, held exactly. -/
structure Dbl where
  num : Int
  den : Int
  rad : Nat
deriving DecidableEq

namespace Dbl

/-- Division of a `double` by an `int`. -/
def divInt (v : Dbl) (d : Int) : Dbl := { v with den := v.den * d }

/-- Product of a `double` and an `int`. -/
def mulInt (v : Dbl) (k : Int) : Dbl := { v with num := v.num * k }

/-- Integer part of the absolute value: `floor (|num| / (|den| * sqrt rad))`,
which is `floor (sqrt (floor (num^2 / (den^2 * rad))))`. -/
def magnitude (v : Dbl) : Nat :=
  isqrt (v.num.natAbs ^ 2 / (v.den.natAbs ^ 2 * v.rad))

/-- Whether the value has a negative sign. -/
def negative (v : Dbl) : Bool := (decide (v.num < 0)) != (decide (v.den < 0))

/-- Truncation toward zero. -/
def trunc (v : Dbl) : Int :=
  if v.negative then -(v.magnitude : Int) else (v.magnitude : Int)

/-- Conversion `double -> uint16_t`. -/
def toUInt16 (v : Dbl) : Nat := EVShield.toUInt16 v.trunc

end Dbl

/-! ## The device object -/

/-- The calibration values held by a `MindsensorsUI` object. -/
structure MindsensorsUI where
  x1 : Nat
  y1 : Nat
  x2 : Nat
  y2 : Nat
  x3 : Nat
  y3 : Nat
  x4 : Nat
  y4 : Nat
deriving DecidableEq

namespace MindsensorsUI

/-- All eight calibration values are `uint16_t`. -/
def WellFormed (ui : MindsensorsUI) : Prop :=
  IsU16 ui.x1 ∧ IsU16 ui.y1 ∧ IsU16 ui.x2 ∧ IsU16 ui.y2 ∧
  IsU16 ui.x3 ∧ IsU16 ui.y3 ∧ IsU16 ui.x4 ∧ IsU16 ui.y4

instance (ui : MindsensorsUI) : Decidable ui.WellFormed := by
  unfold WellFormed; infer_instance

/-- The member `tolerance`, a constant the constructor sets to 5. -/
def tolerance (_ui : MindsensorsUI) : Nat := 5

end MindsensorsUI

/-- The value `std::min({a, b, c, d})`. -/
def min4 (a b c d : Nat) : Nat := min (min (min a b) c) d

/-- The value `std::max({a, b, c, d})`. -/
def max4 (a b c d : Nat) : Nat := max (max (max a b) c) d

/-! ## `distanceToLine` -/

/-- The `int` expression `(y2-y1)*x0 - (x2-x1)*y0 + x2*y1 - y2*x1`. -/
def lineNumerator (x0 y0 x1 y1 x2 y2 : Nat) : Int :=
  sub32
    (add32
      (sub32 (mul32 (sub32 y2 y1) x0) (mul32 (sub32 x2 x1) y0))
      (mul32 x2 y1))
    (mul32 y2 x1)

/-- The function `distanceToLine`:
`1.0 * abs(numerator) / sqrt(pow(y2-y1, 2) + pow(x2-x1, 2))`. -/
def distanceToLine (x0 y0 x1 y1 x2 y2 : Nat) : Dbl :=
  { num := abs32 (lineNumerator x0 y0 x1 y1 x2 y2)
    den := 1
    rad := (sub32 y2 y1).natAbs ^ 2 + (sub32 x2 x1).natAbs ^ 2 }

/-! ## `getReading` -/

namespace MindsensorsUI

/-- Line 115: `dU0 = 1.0 * distanceToLine(x, y, x1, y1, x2, y2) / (y2-y1) * 320`. -/
def dU0 (ui : MindsensorsUI) (x y : Nat) : Nat :=
  (((distanceToLine x y ui.x1 ui.y1 ui.x2 ui.y2).divInt (sub32 ui.y2 ui.y1)).mulInt 320).toUInt16

/-- Line 116: `dV0 = 1.0 * distanceToLine(x, y, x1, y1, x4, y4) / (x4-x1) * 240`. -/
def dV0 (ui : MindsensorsUI) (x y : Nat) : Nat :=
  (((distanceToLine x y ui.x1 ui.y1 ui.x4 ui.y4).divInt (sub32 ui.x4 ui.x1)).mulInt 240).toUInt16

/-- Line 118: `dU1 = 1.0 * distanceToLine(x, y, x4, y4, x3, y3) / (y3-y4) * 320`. -/
def dU1 (ui : MindsensorsUI) (x y : Nat) : Nat :=
  (((distanceToLine x y ui.x4 ui.y4 ui.x3 ui.y3).divInt (sub32 ui.y3 ui.y4)).mulInt 320).toUInt16

/-- Line 119: `dV1 = 1.0 * distanceToLine(x, y, x2, y2, x3, y3) / (x3-x2) * 240`. -/
def dV1 (ui : MindsensorsUI) (x y : Nat) : Nat :=
  (((distanceToLine x y ui.x2 ui.y2 ui.x3 ui.y3).divInt (sub32 ui.x3 ui.x2)).mulInt 240).toUInt16

/-- The bounds test of lines 93-96. -/
def outOfBounds (ui : MindsensorsUI) (x y : Nat) : Bool :=
  decide (x < min4 ui.x1 ui.x2 ui.x3 ui.x4) || decide (x > max4 ui.x1 ui.x2 ui.x3 ui.x4) ||
  decide (y < min4 ui.y1 ui.y2 ui.y3 ui.y4) || decide (y > max4 ui.y1 ui.y2 ui.y3 ui.y4)

/-- The degeneracy test of lines 104-107. -/
def degenerate (ui : MindsensorsUI) : Bool :=
  decide (sub32 ui.y2 ui.y1 = 0) || decide (sub32 ui.x4 ui.x1 = 0) ||
  decide (sub32 ui.y3 ui.y4 = 0) || decide (sub32 ui.x3 ui.x2 = 0)

end MindsensorsUI

/-- Lines 122-131 of `getReading`: the zero-sum guard and the two final
ratios, from the four stored intermediates. -/
def screenRatios (dU0 dU1 dV0 dV1 : Nat) : Nat × Nat :=
  if add32 dU0 dU1 = 0 ∨ add32 dV0 dV1 = 0 then (0, 0)
  else (toUInt16 (div32 (mul32 320 dU0) (add32 dU0 dU1)),
        toUInt16 (div32 (mul32 240 dV0) (add32 dV0 dV1)))

/-- The method `getReading`, on the raw sample `(x, y)` that `RAW_X()` and
`RAW_Y()` deliver; the result is the pair written to `(*retx, *rety)`. -/
def MindsensorsUI.getReading (ui : MindsensorsUI) (raw : Nat × Nat) : Nat × Nat :=
  let x := raw.1
  let y := raw.2
  if ui.outOfBounds x y then (0, 0)
  else if ui.degenerate then (0, 0)
  else screenRatios (ui.dU0 x y) (ui.dU1 x y) (ui.dV0 x y) (ui.dV1 x y)

/-! ## `getTouchscreenValues` and the queries built on it -/

/-- Lines 142-149 of `getTouchscreenValues`: the comparison of the two
readings `(x1, y1)` and `(x2, y2)`. -/
def compareReadings (tolerance : Nat) (first second : Nat × Nat) : Nat × Nat :=
  if abs32 (sub32 second.1 first.1) < tolerance ∧ abs32 (sub32 second.2 first.2) < tolerance
  then second else (0, 0)

namespace MindsensorsUI

/-- The method `getTouchscreenValues`, on the two raw samples its two calls of
`getReading` consume. -/
def getTouchscreenValues (ui : MindsensorsUI) (s1 s2 : Nat × Nat) : Nat × Nat :=
  compareReadings ui.tolerance (ui.getReading s1) (ui.getReading s2)

/-- The method `TS_X`. -/
def TS_X (ui : MindsensorsUI) (s1 s2 : Nat × Nat) : Nat := (ui.getTouchscreenValues s1 s2).1

/-- The method `TS_Y`. -/
def TS_Y (ui : MindsensorsUI) (s1 s2 : Nat × Nat) : Nat := (ui.getTouchscreenValues s1 s2).2

/-- The method `isTouched`. -/
def isTouched (ui : MindsensorsUI) (s1 s2 : Nat × Nat) : Bool :=
  let p := ui.getTouchscreenValues s1 s2
  !(p.1 == 0 && p.2 == 0)

end MindsensorsUI

/-- Lines 185-192 of `checkButton`: the test of the touch point
`(tsx, tsy)` against the rectangle. -/
def hitTest (x y width height : Nat) (ts : Nat × Nat) : Bool :=
  if ts.1 == 0 && ts.2 == 0 then false
  else decide ((ts.1 : Int) ≤ add32 x width) && decide (ts.1 ≥ x) &&
       decide ((ts.2 : Int) ≤ add32 y height) && decide (ts.2 ≥ y)

/-- The method `checkButton`. -/
def MindsensorsUI.checkButton (ui : MindsensorsUI) (x y width height : Nat)
    (s1 s2 : Nat × Nat) : Bool :=
  hitTest x y width height (ui.getTouchscreenValues s1 s2)

/-! ## Divisions with the divisor checked

The same computation with every division trapping on a zero divisor: `none`
stands for a division by zero that was reached. -/

/-- The function `distanceToLine`, `none` when the value under the square root,
the divisor of its division, is zero. -/
def distanceToLineChecked (x0 y0 x1 y1 x2 y2 : Nat) : Option Dbl :=
  if (distanceToLine x0 y0 x1 y1 x2 y2).rad = 0 then none
  else some (distanceToLine x0 y0 x1 y1 x2 y2)

/-- Division of a `double` by an `int`, `none` when the divisor is zero. -/
def Dbl.divIntChecked (v : Dbl) (d : Int) : Option Dbl :=
  if d = 0 then none else some (v.divInt d)

/-- The `int` quotient `a / b`, `none` when the divisor is zero. -/
def div32Checked (a b : Int) : Option Int :=
  if b = 0 then none else some (div32 a b)

/-- One of the lines 115-119: `1.0 * distanceToLine(x0, y0, x1, y1, x2, y2) / d * k`
stored in a `uint16_t`, with both divisions checked. -/
def scaledDistanceChecked (x0 y0 x1 y1 x2 y2 : Nat) (d k : Int) : Option Nat :=
  (distanceToLineChecked x0 y0 x1 y1 x2 y2).bind fun v =>
    (v.divIntChecked d).bind fun q => some (q.mulInt k).toUInt16

/-- Lines 122-131 of `getReading` with the two final divisions checked. -/
def screenRatiosChecked (dU0 dU1 dV0 dV1 : Nat) : Option (Nat × Nat) :=
  if add32 dU0 dU1 = 0 ∨ add32 dV0 dV1 = 0 then some (0, 0)
  else
    (div32Checked (mul32 320 dU0) (add32 dU0 dU1)).bind fun rx =>
      (div32Checked (mul32 240 dV0) (add32 dV0 dV1)).bind fun ry =>
        some (toUInt16 rx, toUInt16 ry)

/-- The method `getReading` with every division checked, the statements in the
order of the source: `dU0`, `dV0`, `dU1`, `dV1`, then the two ratios. -/
def MindsensorsUI.getReadingChecked (ui : MindsensorsUI) (raw : Nat × Nat) :
    Option (Nat × Nat) :=
  let x := raw.1
  let y := raw.2
  if ui.outOfBounds x y then some (0, 0)
  else if ui.degenerate then some (0, 0)
  else
    (scaledDistanceChecked x y ui.x1 ui.y1 ui.x2 ui.y2 (sub32 ui.y2 ui.y1) 320).bind fun dU0 =>
    (scaledDistanceChecked x y ui.x1 ui.y1 ui.x4 ui.y4 (sub32 ui.x4 ui.x1) 240).bind fun dV0 =>
    (scaledDistanceChecked x y ui.x4 ui.y4 ui.x3 ui.y3 (sub32 ui.y3 ui.y4) 320).bind fun dU1 =>
    (scaledDistanceChecked x y ui.x2 ui.y2 ui.x3 ui.y3 (sub32 ui.x3 ui.x2) 240).bind fun dV1 =>
    screenRatiosChecked dU0 dU1 dV0 dV1

/-! ## Calibrations and closed forms used in the statements -/

/-- The calibration of the specification's example scenarios. -/
def exampleUI : MindsensorsUI :=
  { x1 := 100, y1 := 100, x2 := 100, y2 := 900, x3 := 900, y3 := 900, x4 := 900, y4 := 100 }

/-- The axis-aligned rectangular calibration with corner1 = `(a, b)`,
corner2 = `(a, d)`, corner3 = `(c, d)`, corner4 = `(c, b)`. -/
def axisAligned (a b c d : Nat) : MindsensorsUI :=
  { x1 := a, y1 := b, x2 := a, y2 := d, x3 := c, y3 := d, x4 := c, y4 := b }

/-- A non-degenerate calibration whose corner3 lies one raw unit from the
line through corner1 and corner2. -/
def thinUI : MindsensorsUI :=
  { x1 := 100, y1 := 100, x2 := 100, y2 := 900, x3 := 101, y3 := 900, x4 := 900, y4 := 100 }

/-- An axis-aligned calibration with raw values up to 50000. -/
def wideUI : MindsensorsUI := axisAligned 0 0 50000 50000

/-- The axis-aligned calibration that spans the whole `uint16_t` range. -/
def fullUI : MindsensorsUI := axisAligned 0 0 65535 65535

/-- The exact value of the numerator of `distanceToLine`, before `abs`. -/
def exactNumerator (x0 y0 x1 y1 x2 y2 : Nat) : Int :=
  ((y2 : Int) - y1) * x0 - ((x2 : Int) - x1) * y0 + x2 * y1 - y2 * x1

/-- The closed form with truncated intermediates for the calibration
`axisAligned a b c d`: `U0 = floor(320(x-a)/(d-b))`, `U1 = floor(320(c-x)/(d-b))`,
`V0 = floor(240(y-b)/(c-a))`, `V1 = floor(240(d-y)/(c-a))`, and the result
`(floor(320 U0/(U0+U1)), floor(240 V0/(V0+V1)))`, or `(0, 0)` when a sum is zero. -/
def truncatedReading (a b c d : Nat) (raw : Nat × Nat) : Nat × Nat :=
  let u0 := 320 * (raw.1 - a) / (d - b)
  let u1 := 320 * (c - raw.1) / (d - b)
  let v0 := 240 * (raw.2 - b) / (c - a)
  let v1 := 240 * (d - raw.2) / (c - a)
  if u0 + u1 = 0 ∨ v0 + v1 = 0 then (0, 0)
  else (320 * u0 / (u0 + u1), 240 * v0 / (v0 + v1))

end EVShield

namespace EVShield

/-! ## Basic facts about the machine-integer operations -/

theorem wrapInt32_eq (z : Int) :
    wrapInt32 z = (z + 2147483648) % 4294967296 - 2147483648 := by
  unfold wrapInt32
  split <;> omega

theorem wrapInt32_of_inRange (z : Int) (h1 : -2147483648 ≤ z) (h2 : z < 2147483648) :
    wrapInt32 z = z := by
  rw [wrapInt32_eq]; omega

theorem wrapInt32_congr (a b : Int) (h : a % 4294967296 = b % 4294967296) :
    wrapInt32 a = wrapInt32 b := by
  rw [wrapInt32_eq, wrapInt32_eq]; omega

theorem wrapInt32_modEq (z : Int) : wrapInt32 z ≡ z [ZMOD 4294967296] := by
  rw [wrapInt32_eq]; unfold Int.ModEq; omega

theorem wrapInt32_range (z : Int) : -2147483648 ≤ wrapInt32 z ∧ wrapInt32 z < 2147483648 := by
  rw [wrapInt32_eq]; omega

theorem toUInt16_lt (z : Int) : toUInt16 z < 65536 := by
  unfold toUInt16; omega

theorem toUInt16_of_inRange (n : Nat) (h : n < 65536) : toUInt16 (n : Int) = n := by
  unfold toUInt16; omega

theorem sub32_u16 (a b : Nat) (ha : IsU16 a) (hb : IsU16 b) :
    sub32 a b = (a : Int) - b := by
  unfold IsU16 at ha hb
  unfold sub32
  apply wrapInt32_of_inRange <;> omega

theorem add32_u16 (a b : Nat) (ha : IsU16 a) (hb : IsU16 b) :
    add32 a b = (a : Int) + b := by
  unfold IsU16 at ha hb
  unfold add32
  apply wrapInt32_of_inRange <;> omega

theorem min4_le (a b c d : Nat) :
    min4 a b c d ≤ a ∧ min4 a b c d ≤ b ∧ min4 a b c d ≤ c ∧ min4 a b c d ≤ d := by
  unfold min4; omega

theorem le_max4 (a b c d : Nat) :
    a ≤ max4 a b c d ∧ b ≤ max4 a b c d ∧ c ≤ max4 a b c d ∧ d ≤ max4 a b c d := by
  unfold max4; omega

theorem min4_mem (a b c d : Nat) :
    min4 a b c d = a ∨ min4 a b c d = b ∨ min4 a b c d = c ∨ min4 a b c d = d := by
  unfold min4; omega

theorem max4_mem (a b c d : Nat) :
    max4 a b c d = a ∨ max4 a b c d = b ∨ max4 a b c d = c ∨ max4 a b c d = d := by
  unfold max4; omega

/-! ## Claims -/

/-- C1: a raw sample that is below all four or above all four calibration
values on the x axis, or on the y axis, is mapped by `getReading` to `(0, 0)`. -/
theorem getReading_outside_bounding_box (ui : MindsensorsUI) (x y : Nat)
    (h : (x < ui.x1 ∧ x < ui.x2 ∧ x < ui.x3 ∧ x < ui.x4) ∨
         (ui.x1 < x ∧ ui.x2 < x ∧ ui.x3 < x ∧ ui.x4 < x) ∨
         (y < ui.y1 ∧ y < ui.y2 ∧ y < ui.y3 ∧ y < ui.y4) ∨
         (ui.y1 < y ∧ ui.y2 < y ∧ ui.y3 < y ∧ ui.y4 < y)) :
    ui.getReading (x, y) = (0, 0) := by
  have hb : ui.outOfBounds x y = true := by
    have hx := min4_mem ui.x1 ui.x2 ui.x3 ui.x4
    have hX := max4_mem ui.x1 ui.x2 ui.x3 ui.x4
    have hy := min4_mem ui.y1 ui.y2 ui.y3 ui.y4
    have hY := max4_mem ui.y1 ui.y2 ui.y3 ui.y4
    simp only [MindsensorsUI.outOfBounds, Bool.or_eq_true, decide_eq_true_eq]
    omega
  simp [MindsensorsUI.getReading, hb]

/-- C1, at the specification's example: calibration
(100,100),(100,900),(900,900),(900,100), raw sample (50,50). -/
theorem getReading_outside_bounding_box_witness :
    exampleUI.getReading (50, 50) = (0, 0) :=
  getReading_outside_bounding_box exampleUI 50 50 (Or.inl (by decide))

/-- C2: with a calibration in which `y2 = y1`, `x4 = x1`, `y3 = y4` or
`x3 = x2`, `getReading` returns `(0, 0)` for every raw sample. -/
theorem getReading_degenerate (ui : MindsensorsUI)
    (h : ui.y2 = ui.y1 ∨ ui.x4 = ui.x1 ∨ ui.y3 = ui.y4 ∨ ui.x3 = ui.x2)
    (raw : Nat × Nat) :
    ui.getReading raw = (0, 0) := by
  have hd : ui.degenerate = true := by
    simp only [MindsensorsUI.degenerate, Bool.or_eq_true, decide_eq_true_eq, sub32, wrapInt32_eq]
    omega
  simp only [MindsensorsUI.getReading, hd]
  split <;> rfl

/-- C2, at a calibration with `y2 = y1` and a raw sample inside its bounding box. -/
theorem getReading_degenerate_witness :
    ({ x1 := 100, y1 := 100, x2 := 100, y2 := 100,
       x3 := 900, y3 := 900, x4 := 900, y4 := 100 } : MindsensorsUI).getReading (500, 500)
      = (0, 0) :=
  getReading_degenerate _ (Or.inl rfl) (500, 500)

end EVShield

namespace EVShield

end EVShield

namespace EVShield

/-! ### Range of the result -/

theorem int_quotient_le (k a b : Nat) (hab : a + b ≠ 0) : k * a / (a + b) ≤ k := by
  have hpos : 0 < a + b := Nat.pos_of_ne_zero hab
  rw [Nat.div_le_iff_le_mul_add_pred hpos]
  nlinarith [Nat.zero_le (k * b), Nat.zero_le a, Nat.zero_le b]

theorem ratio_exact (k a b : Nat) (hk : k ≤ 320) (ha : IsU16 a) (hb : IsU16 b) :
    mul32 k a = ((k * a : Nat) : Int) ∧ add32 a b = ((a + b : Nat) : Int) ∧
    div32 (mul32 k a) (add32 a b) = ((k * a / (a + b) : Nat) : Int) := by
  unfold IsU16 at ha hb
  have hka : k * a ≤ 320 * 65535 := Nat.mul_le_mul hk (by omega)
  have h1 : mul32 k a = ((k * a : Nat) : Int) := by
    unfold mul32
    rw [wrapInt32_of_inRange] <;> push_cast <;> [rfl; skip; skip] <;>
      (have : ((k * a : Nat) : Int) = (k : Int) * a := by push_cast; rfl) <;> omega
  have h2 : add32 a b = ((a + b : Nat) : Int) := by
    rw [add32_u16 a b ha hb]; push_cast; rfl
  refine ⟨h1, h2, ?_⟩
  rw [h1, h2]
  unfold div32
  rw [Int.tdiv_eq_ediv (Int.natCast_nonneg _) (Int.natCast_nonneg _), ← Int.natCast_div]
  have hq : k * a / (a + b) ≤ 320 * 65535 := le_trans (Nat.div_le_self _ _) hka
  generalize k * a / (a + b) = q at hq ⊢
  apply wrapInt32_of_inRange <;> omega

end EVShield

namespace EVShield

/-! ### The integer square root -/

theorem isqrtFuel_eq_sqrt (fuel : Nat) : ∀ n, n ≤ fuel → isqrtFuel fuel n = Nat.sqrt n := by
  induction fuel with
  | zero =>
    intro n hn
    obtain rfl : n = 0 := by omega
    rfl
  | succ f ih =>
    intro n hn
    unfold isqrtFuel
    split
    · next h => subst h; rfl
    · next h =>
      have h4 : n / 4 ≤ f := by omega
      rw [ih _ h4]
      have hs1 := Nat.sqrt_le (n / 4)
      have hs2 := Nat.lt_succ_sqrt (n / 4)
      generalize Nat.sqrt (n / 4) = s at hs1 hs2
      replace hs2 : n / 4 + 1 ≤ (s + 1) * (s + 1) := hs2
      simp only
      split
      · next hle =>
        rw [Nat.eq_sqrt]
        refine ⟨hle, ?_⟩
        have e : (2 * s + 1 + 1) * (2 * s + 1 + 1) = 4 * ((s + 1) * (s + 1)) := by ring
        omega
      · next hle =>
        rw [Nat.eq_sqrt]
        refine ⟨?_, by omega⟩
        have e : 2 * s * (2 * s) = 4 * (s * s) := by ring
        omega

theorem isqrt_eq_sqrt (n : Nat) : isqrt n = Nat.sqrt n :=
  isqrtFuel_eq_sqrt n n (Nat.le_refl n)

theorem isqrt_zero : isqrt 0 = 0 := rfl

/-- The square root is recovered exactly on a perfect square. -/
theorem isqrt_sq (n : Nat) : isqrt (n ^ 2) = n := by
  rw [isqrt_eq_sqrt, Nat.sqrt_eq']

/-! ### Conversions of `Dbl` values -/

theorem Dbl.toUInt16_isU16 (v : Dbl) : IsU16 v.toUInt16 :=
  EVShield.toUInt16_lt _

theorem Dbl.toUInt16_of_num_eq_zero (v : Dbl) (h : v.num = 0) : v.toUInt16 = 0 := by
  have hm : v.magnitude = 0 := by
    simp [Dbl.magnitude, h, isqrt_zero]
  simp [Dbl.toUInt16, Dbl.trunc, hm, EVShield.toUInt16]

/-! ### The final ratios -/

theorem screenRatios_eq (a b c d : Nat) (ha : IsU16 a) (hb : IsU16 b) (hc : IsU16 c)
    (hd : IsU16 d) :
    screenRatios a b c d =
      if a + b = 0 ∨ c + d = 0 then (0, 0) else (320 * a / (a + b), 240 * c / (c + d)) := by
  obtain ⟨-, hab, hx⟩ := ratio_exact 320 a b (Nat.le_refl _) ha hb
  obtain ⟨-, hcd, hy⟩ := ratio_exact 240 c d (by omega) hc hd
  have hx' : div32 (mul32 320 a) (add32 a b) = ((320 * a / (a + b) : Nat) : Int) := by
    exact_mod_cast hx
  have hy' : div32 (mul32 240 c) (add32 c d) = ((240 * c / (c + d) : Nat) : Int) := by
    exact_mod_cast hy
  unfold screenRatios
  rw [hx', hy', hab, hcd]
  by_cases h : a + b = 0 ∨ c + d = 0
  · have h' : ((a + b : Nat) : Int) = 0 ∨ ((c + d : Nat) : Int) = 0 := by
      rcases h with h | h
      · left; exact_mod_cast h
      · right; exact_mod_cast h
    rw [if_pos h, if_pos h']
  · have h' : ¬ (((a + b : Nat) : Int) = 0 ∨ ((c + d : Nat) : Int) = 0) := by
      rintro (h' | h')
      · exact h (Or.inl (by exact_mod_cast h'))
      · exact h (Or.inr (by exact_mod_cast h'))
    rw [if_neg h, if_neg h']
    push_neg at h
    have h1 : 320 * a / (a + b) < 65536 := lt_of_le_of_lt (int_quotient_le 320 a b h.1) (by omega)
    have h2 : 240 * c / (c + d) < 65536 := lt_of_le_of_lt (int_quotient_le 240 c d h.2) (by omega)
    rw [toUInt16_of_inRange _ h1, toUInt16_of_inRange _ h2]

theorem screenRatios_le (a b c d : Nat) (ha : IsU16 a) (hb : IsU16 b) (hc : IsU16 c)
    (hd : IsU16 d) :
    (screenRatios a b c d).1 ≤ 320 ∧ (screenRatios a b c d).2 ≤ 240 := by
  rw [screenRatios_eq a b c d ha hb hc hd]
  split
  · exact ⟨Nat.zero_le _, Nat.zero_le _⟩
  · next h =>
    push_neg at h
    exact ⟨int_quotient_le 320 a b h.1, int_quotient_le 240 c d h.2⟩

theorem dU0_isU16 (ui : MindsensorsUI) (x y : Nat) : IsU16 (ui.dU0 x y) := Dbl.toUInt16_isU16 _
theorem dU1_isU16 (ui : MindsensorsUI) (x y : Nat) : IsU16 (ui.dU1 x y) := Dbl.toUInt16_isU16 _
theorem dV0_isU16 (ui : MindsensorsUI) (x y : Nat) : IsU16 (ui.dV0 x y) := Dbl.toUInt16_isU16 _
theorem dV1_isU16 (ui : MindsensorsUI) (x y : Nat) : IsU16 (ui.dV1 x y) := Dbl.toUInt16_isU16 _

/-- C5: `getReading` always returns a point with `x ≤ 320` and `y ≤ 240`; and
for any `uint16_t` intermediates with non-zero sums, the products `320 * dU0`
and `240 * dV0` stay inside the 32-bit `int` range, the `int` computation of
the two ratios gives the exact quotients, and these are at most 320 and 240. -/
theorem getReading_in_screen (ui : MindsensorsUI) (raw : Nat × Nat) :
    ((ui.getReading raw).1 ≤ 320 ∧ (ui.getReading raw).2 ≤ 240) ∧
    ∀ dU0 dU1 dV0 dV1 : Nat, IsU16 dU0 → IsU16 dU1 → IsU16 dV0 → IsU16 dV1 →
      dU0 + dU1 ≠ 0 → dV0 + dV1 ≠ 0 →
      (320 * dU0 ≤ 2147483647 ∧ 240 * dV0 ≤ 2147483647) ∧
      (mul32 320 dU0 = ((320 * dU0 : Nat) : Int) ∧ mul32 240 dV0 = ((240 * dV0 : Nat) : Int)) ∧
      (div32 (mul32 320 dU0) (add32 dU0 dU1) = ((320 * dU0 / (dU0 + dU1) : Nat) : Int) ∧
       div32 (mul32 240 dV0) (add32 dV0 dV1) = ((240 * dV0 / (dV0 + dV1) : Nat) : Int)) ∧
      (320 * dU0 / (dU0 + dU1) ≤ 320 ∧ 240 * dV0 / (dV0 + dV1) ≤ 240) ∧
      screenRatios dU0 dU1 dV0 dV1 = (320 * dU0 / (dU0 + dU1), 240 * dV0 / (dV0 + dV1)) := by
  constructor
  · unfold MindsensorsUI.getReading
    simp only
    split
    · exact ⟨Nat.zero_le _, Nat.zero_le _⟩
    · split
      · exact ⟨Nat.zero_le _, Nat.zero_le _⟩
      · exact screenRatios_le _ _ _ _ (dU0_isU16 ..) (dU1_isU16 ..) (dV0_isU16 ..) (dV1_isU16 ..)
  · intro a b c d ha hb hc hd hab hcd
    obtain ⟨hm1, -, hx⟩ := ratio_exact 320 a b (Nat.le_refl _) ha hb
    obtain ⟨hm2, -, hy⟩ := ratio_exact 240 c d (by omega) hc hd
    refine ⟨?_, ⟨by exact_mod_cast hm1, by exact_mod_cast hm2⟩,
      ⟨by exact_mod_cast hx, by exact_mod_cast hy⟩,
      ⟨int_quotient_le 320 a b hab, int_quotient_le 240 c d hcd⟩, ?_⟩
    · unfold IsU16 at ha hc; omega
    · rw [screenRatios_eq a b c d ha hb hc hd, if_neg]
      push_neg
      exact ⟨hab, hcd⟩

/-- C5, at the centre sample of the example calibration and at its stored
intermediates 160, 160, 120, 120. -/
theorem getReading_in_screen_witness :
    ((exampleUI.getReading (500, 500)).1 ≤ 320 ∧ (exampleUI.getReading (500, 500)).2 ≤ 240) ∧
    screenRatios 160 160 120 120 = (160, 120) :=
  ⟨(getReading_in_screen exampleUI (500, 500)).1,
   ((getReading_in_screen exampleUI (500, 500)).2 160 160 120 120
      (by decide) (by decide) (by decide) (by decide) (by decide) (by decide)).2.2.2.2⟩

end EVShield

namespace EVShield

/-! ### The numerator of `distanceToLine` -/

/-- The wrapped `int` evaluation of the numerator is the wrap of its exact value. -/
theorem lineNumerator_eq_wrap (x0 y0 x1 y1 x2 y2 : Nat) :
    lineNumerator x0 y0 x1 y1 x2 y2 =
      wrapInt32 (((y2 : Int) - y1) * x0 - ((x2 : Int) - x1) * y0 + x2 * y1 - y2 * x1) := by
  unfold lineNumerator
  unfold sub32
  apply wrapInt32_congr
  refine Int.ModEq.sub ((wrapInt32_modEq _).trans (Int.ModEq.add ((wrapInt32_modEq _).trans
    (Int.ModEq.sub ((wrapInt32_modEq _).trans (Int.ModEq.mul_right _ (wrapInt32_modEq _)))
      ((wrapInt32_modEq _).trans (Int.ModEq.mul_right _ (wrapInt32_modEq _)))))
    (wrapInt32_modEq _))) (wrapInt32_modEq _)

theorem wrapInt32_zero : wrapInt32 0 = 0 := by decide

theorem lineNumerator_at_first (x1 y1 x2 y2 : Nat) : lineNumerator x1 y1 x1 y1 x2 y2 = 0 := by
  rw [lineNumerator_eq_wrap]
  have : ((y2 : Int) - y1) * x1 - ((x2 : Int) - x1) * y1 + x2 * y1 - y2 * x1 = 0 := by ring
  rw [this, wrapInt32_zero]

theorem lineNumerator_at_second (x1 y1 x2 y2 : Nat) : lineNumerator x2 y2 x1 y1 x2 y2 = 0 := by
  rw [lineNumerator_eq_wrap]
  have : ((y2 : Int) - y1) * x2 - ((x2 : Int) - x1) * y2 + x2 * y1 - y2 * x1 = 0 := by ring
  rw [this, wrapInt32_zero]

theorem abs32_zero : abs32 0 = 0 := by decide

theorem scaled_distance_zero (x0 y0 x1 y1 x2 y2 : Nat) (d k : Int)
    (h : lineNumerator x0 y0 x1 y1 x2 y2 = 0) :
    (((distanceToLine x0 y0 x1 y1 x2 y2).divInt d).mulInt k).toUInt16 = 0 := by
  apply Dbl.toUInt16_of_num_eq_zero
  simp [Dbl.mulInt, Dbl.divInt, distanceToLine, h, abs32_zero]

theorem screenRatios_zero_left (b d : Nat) (hb : IsU16 b) (hd : IsU16 d) :
    screenRatios 0 b 0 d = (0, 0) := by
  rw [screenRatios_eq 0 b 0 d (by decide) hb (by decide) hd]
  split
  · rfl
  · simp

/-- C6: the raw sample equal to corner1 has numerator 0 against the edges
corner1-corner2 and corner1-corner4, so `dU0 = dV0 = 0`, and `getReading`
maps it to `(0, 0)`, for every calibration. -/
theorem getReading_corner1 (ui : MindsensorsUI) :
    lineNumerator ui.x1 ui.y1 ui.x1 ui.y1 ui.x2 ui.y2 = 0 ∧
    lineNumerator ui.x1 ui.y1 ui.x1 ui.y1 ui.x4 ui.y4 = 0 ∧
    ui.dU0 ui.x1 ui.y1 = 0 ∧ ui.dV0 ui.x1 ui.y1 = 0 ∧
    ui.getReading (ui.x1, ui.y1) = (0, 0) := by
  have hU : ui.dU0 ui.x1 ui.y1 = 0 :=
    scaled_distance_zero _ _ _ _ _ _ _ _ (lineNumerator_at_first ..)
  have hV : ui.dV0 ui.x1 ui.y1 = 0 :=
    scaled_distance_zero _ _ _ _ _ _ _ _ (lineNumerator_at_first ..)
  refine ⟨lineNumerator_at_first .., lineNumerator_at_first .., hU, hV, ?_⟩
  unfold MindsensorsUI.getReading
  simp only [hU, hV]
  rw [screenRatios_zero_left _ _ (dU1_isU16 ..) (dV1_isU16 ..)]
  split
  · rfl
  · split <;> rfl

end EVShield

namespace EVShield

/-! ### The queries on a debounced read -/

theorem not_sentinel_iff (p : Nat × Nat) :
    ((!(p.1 == 0 && p.2 == 0)) = true ↔ p ≠ (0, 0)) ∧
    ((!(p.1 == 0 && p.2 == 0)) = false ↔ p.1 = 0 ∧ p.2 = 0) := by
  obtain ⟨px, py⟩ := p
  by_cases hx : px = 0 <;> by_cases hy : py = 0 <;> simp [hx, hy]

/-- C10: `isTouched` is true exactly when the debounced read is not `(0, 0)`,
false exactly when both components are 0 (so a point with a single zero
coordinate counts as touched); `TS_X` and `TS_Y` are the components of the
debounced read. -/
theorem isTouched_iff_not_sentinel (ui : MindsensorsUI) (s1 s2 : Nat × Nat) :
    (ui.isTouched s1 s2 = true ↔ ui.getTouchscreenValues s1 s2 ≠ (0, 0)) ∧
    (ui.isTouched s1 s2 = false ↔
      (ui.getTouchscreenValues s1 s2).1 = 0 ∧ (ui.getTouchscreenValues s1 s2).2 = 0) ∧
    ((ui.getTouchscreenValues s1 s2).1 ≠ 0 ∨ (ui.getTouchscreenValues s1 s2).2 ≠ 0 →
      ui.isTouched s1 s2 = true) ∧
    ui.TS_X s1 s2 = (ui.getTouchscreenValues s1 s2).1 ∧
    ui.TS_Y s1 s2 = (ui.getTouchscreenValues s1 s2).2 := by
  have h := not_sentinel_iff (ui.getTouchscreenValues s1 s2)
  refine ⟨h.1, h.2, ?_, rfl, rfl⟩
  intro hne
  apply h.1.2
  intro heq
  rw [heq] at hne
  rcases hne with hne | hne <;> exact hne rfl

/-- C10, at a debounced read with a single zero coordinate: the example
calibration with both raw samples (110,100) reads `(4, 0)` and is touched. -/
theorem isTouched_iff_not_sentinel_witness :
    exampleUI.getTouchscreenValues (110, 100) (110, 100) = (4, 0) ∧
    exampleUI.isTouched (110, 100) (110, 100) = true :=
  ⟨by decide,
   (isTouched_iff_not_sentinel exampleUI (110, 100) (110, 100)).2.2.1 (Or.inl (by decide))⟩

end EVShield

namespace EVShield

/-! ### Samples at the calibration corners -/

theorem getReading_of_inside (ui : MindsensorsUI) (x y : Nat)
    (hb : ui.outOfBounds x y = false) (hd : ui.degenerate = false) :
    ui.getReading (x, y) =
      screenRatios (ui.dU0 x y) (ui.dU1 x y) (ui.dV0 x y) (ui.dV1 x y) := by
  simp [MindsensorsUI.getReading, hb, hd]

theorem outOfBounds_of_inside (ui : MindsensorsUI) (x y : Nat)
    (hx1 : min4 ui.x1 ui.x2 ui.x3 ui.x4 ≤ x) (hx2 : x ≤ max4 ui.x1 ui.x2 ui.x3 ui.x4)
    (hy1 : min4 ui.y1 ui.y2 ui.y3 ui.y4 ≤ y) (hy2 : y ≤ max4 ui.y1 ui.y2 ui.y3 ui.y4) :
    ui.outOfBounds x y = false := by
  simp only [MindsensorsUI.outOfBounds, Bool.or_eq_false_iff, decide_eq_false_iff_not]
  omega

theorem outOfBounds_corners (ui : MindsensorsUI) :
    ui.outOfBounds ui.x1 ui.y1 = false ∧ ui.outOfBounds ui.x2 ui.y2 = false ∧
    ui.outOfBounds ui.x3 ui.y3 = false ∧ ui.outOfBounds ui.x4 ui.y4 = false := by
  have hx := min4_le ui.x1 ui.x2 ui.x3 ui.x4
  have hX := le_max4 ui.x1 ui.x2 ui.x3 ui.x4
  have hy := min4_le ui.y1 ui.y2 ui.y3 ui.y4
  have hY := le_max4 ui.y1 ui.y2 ui.y3 ui.y4
  exact ⟨outOfBounds_of_inside ui _ _ hx.1 hX.1 hy.1 hY.1,
    outOfBounds_of_inside ui _ _ hx.2.1 hX.2.1 hy.2.1 hY.2.1,
    outOfBounds_of_inside ui _ _ hx.2.2.1 hX.2.2.1 hy.2.2.1 hY.2.2.1,
    outOfBounds_of_inside ui _ _ hx.2.2.2 hX.2.2.2 hy.2.2.2 hY.2.2.2⟩

theorem degenerate_eq_false (ui : MindsensorsUI) (hwf : ui.WellFormed)
    (hnd : ui.y2 ≠ ui.y1 ∧ ui.x4 ≠ ui.x1 ∧ ui.y3 ≠ ui.y4 ∧ ui.x3 ≠ ui.x2) :
    ui.degenerate = false := by
  obtain ⟨h1, h2, h3, h4, h5, h6, h7, h8⟩ := hwf
  simp only [MindsensorsUI.degenerate, Bool.or_eq_false_iff, decide_eq_false_iff_not,
    sub32_u16 _ _ h4 h2, sub32_u16 _ _ h7 h1, sub32_u16 _ _ h6 h8, sub32_u16 _ _ h5 h3]
  omega

theorem screenRatios_far_corner (a c : Nat) (ha : IsU16 a) (hc : IsU16 c) :
    screenRatios a 0 c 0 = if a = 0 ∨ c = 0 then (0, 0) else (320, 240) := by
  rw [screenRatios_eq a 0 c 0 ha (by decide) hc (by decide)]
  simp only [Nat.add_zero]
  by_cases h : a = 0 ∨ c = 0
  · rw [if_pos h, if_pos h]
  · rw [if_neg h, if_neg h]
    push_neg at h
    rw [Nat.mul_div_cancel _ (Nat.pos_of_ne_zero h.1),
      Nat.mul_div_cancel _ (Nat.pos_of_ne_zero h.2)]

theorem screenRatios_second_corner (b c : Nat) (hb : IsU16 b) (hc : IsU16 c) :
    screenRatios 0 b c 0 = if b = 0 ∨ c = 0 then (0, 0) else (0, 240) := by
  rw [screenRatios_eq 0 b c 0 (by decide) hb hc (by decide)]
  simp only [Nat.add_zero, Nat.zero_add, Nat.mul_zero, Nat.zero_div]
  by_cases h : b = 0 ∨ c = 0
  · rw [if_pos h, if_pos h]
  · rw [if_neg h, if_neg h]
    push_neg at h
    rw [Nat.mul_div_cancel _ (Nat.pos_of_ne_zero h.2)]

theorem screenRatios_fourth_corner (a d : Nat) (ha : IsU16 a) (hd : IsU16 d) :
    screenRatios a 0 0 d = if a = 0 ∨ d = 0 then (0, 0) else (320, 0) := by
  rw [screenRatios_eq a 0 0 d ha (by decide) (by decide) hd]
  simp only [Nat.add_zero, Nat.zero_add, Nat.mul_zero, Nat.zero_div]
  by_cases h : a = 0 ∨ d = 0
  · rw [if_pos h, if_pos h]
  · rw [if_neg h, if_neg h]
    push_neg at h
    rw [Nat.mul_div_cancel _ (Nat.pos_of_ne_zero h.1)]

/-- C7, counterexample: the calibration (100,100),(100,900),(101,900),(900,100) is
well formed and non-degenerate, and `getReading` maps the raw sample equal to
its corner3, (101,900), to `(0, 0)`, not to `(320, 240)`: the stored `dU0` is
`trunc(1/800 * 320) = 0` and `dU1 = 0`. -/
theorem getReading_corner3_counterexample :
    thinUI.WellFormed ∧
    (thinUI.y2 ≠ thinUI.y1 ∧ thinUI.x4 ≠ thinUI.x1 ∧ thinUI.y3 ≠ thinUI.y4 ∧
      thinUI.x3 ≠ thinUI.x2) ∧
    thinUI.dU0 thinUI.x3 thinUI.y3 = 0 ∧ thinUI.dU1 thinUI.x3 thinUI.y3 = 0 ∧
    thinUI.getReading (thinUI.x3, thinUI.y3) = (0, 0) ∧
    thinUI.getReading (thinUI.x3, thinUI.y3) ≠ (320, 240) := by
  decide

/-- C7, amended: for a well-formed non-degenerate calibration, the raw sample
equal to corner3 has `dU1 = dV1 = 0`, and `getReading` maps it to `(320, 240)`
when its stored intermediates `dU0` and `dV0` are both non-zero, and to
`(0, 0)` when one of them is zero. -/
theorem getReading_corner3 (ui : MindsensorsUI) (hwf : ui.WellFormed)
    (hnd : ui.y2 ≠ ui.y1 ∧ ui.x4 ≠ ui.x1 ∧ ui.y3 ≠ ui.y4 ∧ ui.x3 ≠ ui.x2) :
    ui.dU1 ui.x3 ui.y3 = 0 ∧ ui.dV1 ui.x3 ui.y3 = 0 ∧
    ui.getReading (ui.x3, ui.y3) =
      if ui.dU0 ui.x3 ui.y3 = 0 ∨ ui.dV0 ui.x3 ui.y3 = 0 then (0, 0) else (320, 240) := by
  have hU : ui.dU1 ui.x3 ui.y3 = 0 :=
    scaled_distance_zero _ _ _ _ _ _ _ _ (lineNumerator_at_second ..)
  have hV : ui.dV1 ui.x3 ui.y3 = 0 :=
    scaled_distance_zero _ _ _ _ _ _ _ _ (lineNumerator_at_second ..)
  refine ⟨hU, hV, ?_⟩
  rw [getReading_of_inside ui _ _ (outOfBounds_corners ui).2.2.1 (degenerate_eq_false ui hwf hnd),
    hU, hV]
  exact screenRatios_far_corner _ _ (dU0_isU16 ..) (dV0_isU16 ..)

/-- C7, amended, at the example calibration: corner3 = (900,900) has
`dU0 = 320` and `dV0 = 240` and maps to `(320, 240)`. -/
theorem getReading_corner3_witness :
    exampleUI.getReading (900, 900) = (320, 240) :=
  ((getReading_corner3 exampleUI (by decide) (by decide)).2.2).trans (by decide)

/-- C8, counterexample: at the example calibration (100,100),(100,900),(900,900),
(900,100) the raw sample equal to corner2 maps to `(0, 240)`, not `(320, 0)`,
and the raw sample equal to corner4 maps to `(320, 0)`, not `(0, 240)`. -/
theorem getReading_corner_roles_counterexample :
    exampleUI.getReading (exampleUI.x2, exampleUI.y2) = (0, 240) ∧
    exampleUI.getReading (exampleUI.x2, exampleUI.y2) ≠ (320, 0) ∧
    exampleUI.getReading (exampleUI.x4, exampleUI.y4) = (320, 0) ∧
    exampleUI.getReading (exampleUI.x4, exampleUI.y4) ≠ (0, 240) := by
  decide

/-- C8, amended: for a well-formed non-degenerate calibration, the raw sample
equal to corner2 has `dU0 = dV1 = 0` and maps to `(0, 240)` when its stored
`dU1` and `dV0` are non-zero, to `(0, 0)` otherwise; the raw sample equal to
corner4 has `dV0 = dU1 = 0` and maps to `(320, 0)` when its stored `dU0` and
`dV1` are non-zero, to `(0, 0)` otherwise. -/
theorem getReading_corner2_corner4 (ui : MindsensorsUI) (hwf : ui.WellFormed)
    (hnd : ui.y2 ≠ ui.y1 ∧ ui.x4 ≠ ui.x1 ∧ ui.y3 ≠ ui.y4 ∧ ui.x3 ≠ ui.x2) :
    (ui.dU0 ui.x2 ui.y2 = 0 ∧ ui.dV1 ui.x2 ui.y2 = 0 ∧
      ui.getReading (ui.x2, ui.y2) =
        if ui.dU1 ui.x2 ui.y2 = 0 ∨ ui.dV0 ui.x2 ui.y2 = 0 then (0, 0) else (0, 240)) ∧
    (ui.dV0 ui.x4 ui.y4 = 0 ∧ ui.dU1 ui.x4 ui.y4 = 0 ∧
      ui.getReading (ui.x4, ui.y4) =
        if ui.dU0 ui.x4 ui.y4 = 0 ∨ ui.dV1 ui.x4 ui.y4 = 0 then (0, 0) else (320, 0)) := by
  have hd := degenerate_eq_false ui hwf hnd
  have h2U : ui.dU0 ui.x2 ui.y2 = 0 :=
    scaled_distance_zero _ _ _ _ _ _ _ _ (lineNumerator_at_second ..)
  have h2V : ui.dV1 ui.x2 ui.y2 = 0 :=
    scaled_distance_zero _ _ _ _ _ _ _ _ (lineNumerator_at_first ..)
  have h4V : ui.dV0 ui.x4 ui.y4 = 0 :=
    scaled_distance_zero _ _ _ _ _ _ _ _ (lineNumerator_at_second ..)
  have h4U : ui.dU1 ui.x4 ui.y4 = 0 :=
    scaled_distance_zero _ _ _ _ _ _ _ _ (lineNumerator_at_first ..)
  refine ⟨⟨h2U, h2V, ?_⟩, ⟨h4V, h4U, ?_⟩⟩
  · rw [getReading_of_inside ui _ _ (outOfBounds_corners ui).2.1 hd, h2U, h2V]
    exact screenRatios_second_corner _ _ (dU1_isU16 ..) (dV0_isU16 ..)
  · rw [getReading_of_inside ui _ _ (outOfBounds_corners ui).2.2.2 hd, h4V, h4U]
    exact screenRatios_fourth_corner _ _ (dU0_isU16 ..) (dV1_isU16 ..)

/-- C8, amended, at the example calibration: corner2 = (100,900) maps to
`(0, 240)` and corner4 = (900,100) maps to `(320, 0)`. -/
theorem getReading_corner2_corner4_witness :
    exampleUI.getReading (100, 900) = (0, 240) ∧ exampleUI.getReading (900, 100) = (320, 0) :=
  ⟨((getReading_corner2_corner4 exampleUI (by decide) (by decide)).1.2.2).trans (by decide),
   ((getReading_corner2_corner4 exampleUI (by decide) (by decide)).2.2.2).trans (by decide)⟩

end EVShield

namespace EVShield

/-! ### Divisors -/

theorem degenerate_eq_false_iff (ui : MindsensorsUI) :
    ui.degenerate = false ↔
      sub32 ui.y2 ui.y1 ≠ 0 ∧ sub32 ui.x4 ui.x1 ≠ 0 ∧
      sub32 ui.y3 ui.y4 ≠ 0 ∧ sub32 ui.x3 ui.x2 ≠ 0 := by
  simp only [MindsensorsUI.degenerate, Bool.or_eq_false_iff, decide_eq_false_iff_not, ne_eq]
  tauto

theorem rad_pos_of_dy (x0 y0 x1 y1 x2 y2 : Nat) (h : sub32 y2 y1 ≠ 0) :
    0 < (distanceToLine x0 y0 x1 y1 x2 y2).rad := by
  have h1 : 0 < (sub32 y2 y1).natAbs := Int.natAbs_pos.mpr h
  have h2 : 0 < (sub32 y2 y1).natAbs ^ 2 := pow_pos h1 2
  show 0 < (sub32 y2 y1).natAbs ^ 2 + (sub32 x2 x1).natAbs ^ 2
  omega

theorem rad_pos_of_dx (x0 y0 x1 y1 x2 y2 : Nat) (h : sub32 x2 x1 ≠ 0) :
    0 < (distanceToLine x0 y0 x1 y1 x2 y2).rad := by
  have h1 : 0 < (sub32 x2 x1).natAbs := Int.natAbs_pos.mpr h
  have h2 : 0 < (sub32 x2 x1).natAbs ^ 2 := pow_pos h1 2
  show 0 < (sub32 y2 y1).natAbs ^ 2 + (sub32 x2 x1).natAbs ^ 2
  omega

theorem scaledDistanceChecked_eq (x0 y0 x1 y1 x2 y2 : Nat) (d k : Int) (hd : d ≠ 0)
    (hr : 0 < (distanceToLine x0 y0 x1 y1 x2 y2).rad) :
    scaledDistanceChecked x0 y0 x1 y1 x2 y2 d k =
      some (((distanceToLine x0 y0 x1 y1 x2 y2).divInt d).mulInt k).toUInt16 := by
  have hr' : (distanceToLine x0 y0 x1 y1 x2 y2).rad ≠ 0 := by omega
  simp [scaledDistanceChecked, distanceToLineChecked, Dbl.divIntChecked, hr', hd]

theorem screenRatiosChecked_eq (a b c d : Nat) :
    screenRatiosChecked a b c d = some (screenRatios a b c d) := by
  unfold screenRatiosChecked screenRatios
  by_cases h : add32 a b = 0 ∨ add32 c d = 0
  · rw [if_pos h, if_pos h]
  · rw [if_neg h, if_neg h]
    push_neg at h
    simp [div32Checked, h.1, h.2]

/-- C13: no division of `getReading` has a zero divisor.  The computation with
every division checked never traps and returns the result of `getReading`;
past the degeneracy check the four divisors `y2-y1`, `x4-x1`, `y3-y4`, `x3-x2`
are non-zero and the value under the square root of each of the four
`distanceToLine` calls is strictly positive; and the two final divisions, by
`dU0+dU1` and `dV0+dV1`, are checked divisions that succeed whenever the
zero-sum guard lets them run. -/
theorem getReading_no_division_by_zero (ui : MindsensorsUI) (raw : Nat × Nat) :
    ui.getReadingChecked raw = some (ui.getReading raw) ∧
    (ui.degenerate = false →
      (sub32 ui.y2 ui.y1 ≠ 0 ∧ sub32 ui.x4 ui.x1 ≠ 0 ∧
        sub32 ui.y3 ui.y4 ≠ 0 ∧ sub32 ui.x3 ui.x2 ≠ 0) ∧
      (0 < (distanceToLine raw.1 raw.2 ui.x1 ui.y1 ui.x2 ui.y2).rad ∧
        0 < (distanceToLine raw.1 raw.2 ui.x1 ui.y1 ui.x4 ui.y4).rad ∧
        0 < (distanceToLine raw.1 raw.2 ui.x4 ui.y4 ui.x3 ui.y3).rad ∧
        0 < (distanceToLine raw.1 raw.2 ui.x2 ui.y2 ui.x3 ui.y3).rad)) ∧
    (∀ dU0 dU1 dV0 dV1 : Nat, ¬ (add32 dU0 dU1 = 0 ∨ add32 dV0 dV1 = 0) →
      div32Checked (mul32 320 dU0) (add32 dU0 dU1) =
        some (div32 (mul32 320 dU0) (add32 dU0 dU1)) ∧
      div32Checked (mul32 240 dV0) (add32 dV0 dV1) =
        some (div32 (mul32 240 dV0) (add32 dV0 dV1))) ∧
    (∀ dU0 dU1 dV0 dV1 : Nat,
      screenRatiosChecked dU0 dU1 dV0 dV1 = some (screenRatios dU0 dU1 dV0 dV1)) := by
  have key : ui.degenerate = false →
      (sub32 ui.y2 ui.y1 ≠ 0 ∧ sub32 ui.x4 ui.x1 ≠ 0 ∧
        sub32 ui.y3 ui.y4 ≠ 0 ∧ sub32 ui.x3 ui.x2 ≠ 0) ∧
      (0 < (distanceToLine raw.1 raw.2 ui.x1 ui.y1 ui.x2 ui.y2).rad ∧
        0 < (distanceToLine raw.1 raw.2 ui.x1 ui.y1 ui.x4 ui.y4).rad ∧
        0 < (distanceToLine raw.1 raw.2 ui.x4 ui.y4 ui.x3 ui.y3).rad ∧
        0 < (distanceToLine raw.1 raw.2 ui.x2 ui.y2 ui.x3 ui.y3).rad) := by
    intro hd
    have h := (degenerate_eq_false_iff ui).mp hd
    exact ⟨h, rad_pos_of_dy _ _ _ _ _ _ h.1, rad_pos_of_dx _ _ _ _ _ _ h.2.1,
      rad_pos_of_dy _ _ _ _ _ _ h.2.2.1, rad_pos_of_dx _ _ _ _ _ _ h.2.2.2⟩
  refine ⟨?_, key, ?_, screenRatiosChecked_eq⟩
  · unfold MindsensorsUI.getReadingChecked MindsensorsUI.getReading
    simp only
    by_cases hb : ui.outOfBounds raw.1 raw.2 = true
    · rw [if_pos hb, if_pos hb]
    · rw [if_neg hb, if_neg hb]
      by_cases hd : ui.degenerate = true
      · rw [if_pos hd, if_pos hd]
      · rw [if_neg hd, if_neg hd]
        obtain ⟨⟨d1, d2, d3, d4⟩, r1, r2, r3, r4⟩ := key (by simpa using hd)
        rw [scaledDistanceChecked_eq _ _ _ _ _ _ _ _ d1 r1,
          scaledDistanceChecked_eq _ _ _ _ _ _ _ _ d2 r2,
          scaledDistanceChecked_eq _ _ _ _ _ _ _ _ d3 r3,
          scaledDistanceChecked_eq _ _ _ _ _ _ _ _ d4 r4]
        simp only [Option.some_bind]
        exact screenRatiosChecked_eq _ _ _ _
  · intro a b c d h
    push_neg at h
    simp [div32Checked, h.1, h.2]

/-- C13, at the centre sample of the example calibration: the checked
computation returns `(160, 120)`, and the four divisors of that non-degenerate
calibration are non-zero. -/
theorem getReading_no_division_by_zero_witness :
    exampleUI.getReadingChecked (500, 500) = some (160, 120) ∧
    (sub32 exampleUI.y2 exampleUI.y1 ≠ 0 ∧ sub32 exampleUI.x4 exampleUI.x1 ≠ 0 ∧
      sub32 exampleUI.y3 exampleUI.y4 ≠ 0 ∧ sub32 exampleUI.x3 exampleUI.x2 ≠ 0) :=
  ⟨((getReading_no_division_by_zero exampleUI (500, 500)).1).trans (by decide),
   ((getReading_no_division_by_zero exampleUI (500, 500)).2.1 (by decide)).1⟩

end EVShield

namespace EVShield

/-! ### What a reported touch implies -/

theorem compareReadings_cases (tolerance : Nat) (first second : Nat × Nat) :
    compareReadings tolerance first second = second ∨
    compareReadings tolerance first second = (0, 0) := by
  unfold compareReadings
  split
  · exact Or.inl rfl
  · exact Or.inr rfl

theorem getReading_ne_sentinel (ui : MindsensorsUI) (raw : Nat × Nat)
    (h : ui.getReading raw ≠ (0, 0)) :
    ui.outOfBounds raw.1 raw.2 = false ∧ ui.degenerate = false := by
  unfold MindsensorsUI.getReading at h
  simp only at h
  by_cases hb : ui.outOfBounds raw.1 raw.2 = true
  · rw [if_pos hb] at h; exact absurd rfl h
  · rw [if_neg hb] at h
    by_cases hd : ui.degenerate = true
    · rw [if_pos hd] at h; exact absurd rfl h
    · exact ⟨by simpa using hb, by simpa using hd⟩

theorem outOfBounds_eq_false_iff (ui : MindsensorsUI) (x y : Nat) :
    ui.outOfBounds x y = false ↔
      (min4 ui.x1 ui.x2 ui.x3 ui.x4 ≤ x ∧ x ≤ max4 ui.x1 ui.x2 ui.x3 ui.x4) ∧
      (min4 ui.y1 ui.y2 ui.y3 ui.y4 ≤ y ∧ y ≤ max4 ui.y1 ui.y2 ui.y3 ui.y4) := by
  simp only [MindsensorsUI.outOfBounds, Bool.or_eq_false_iff, decide_eq_false_iff_not]
  omega

theorem sub32_self (a : Nat) : sub32 a a = 0 := by
  unfold sub32
  rw [sub_self]
  decide

theorem hitTest_sentinel (x y width height : Nat) :
    hitTest x y width height (0, 0) = false := by
  simp [hitTest]

/-- C15: when `getTouchscreenValues` returns a point other than `(0, 0)`, or
`isTouched` is true, or `checkButton` is true for some rectangle, then the
calibration is non-degenerate, the second raw sample lies inside the
calibration bounding box on both axes, the returned point is the mapping of
the second raw sample, and the returned point has `x ≤ 320` and `y ≤ 240`. -/
theorem getTouchscreenValues_reported (ui : MindsensorsUI) (s1 s2 : Nat × Nat)
    (x y width height : Nat)
    (h : ui.getTouchscreenValues s1 s2 ≠ (0, 0) ∨ ui.isTouched s1 s2 = true ∨
         ui.checkButton x y width height s1 s2 = true) :
    (ui.y2 ≠ ui.y1 ∧ ui.x4 ≠ ui.x1 ∧ ui.y3 ≠ ui.y4 ∧ ui.x3 ≠ ui.x2) ∧
    ui.degenerate = false ∧
    ((min4 ui.x1 ui.x2 ui.x3 ui.x4 ≤ s2.1 ∧ s2.1 ≤ max4 ui.x1 ui.x2 ui.x3 ui.x4) ∧
      (min4 ui.y1 ui.y2 ui.y3 ui.y4 ≤ s2.2 ∧ s2.2 ≤ max4 ui.y1 ui.y2 ui.y3 ui.y4)) ∧
    ui.getTouchscreenValues s1 s2 = ui.getReading s2 ∧
    (ui.getTouchscreenValues s1 s2).1 ≤ 320 ∧ (ui.getTouchscreenValues s1 s2).2 ≤ 240 := by
  have hne : ui.getTouchscreenValues s1 s2 ≠ (0, 0) := by
    rcases h with h | h | h
    · exact h
    · exact (not_sentinel_iff _).1.mp h
    · intro heq
      unfold MindsensorsUI.checkButton at h
      rw [heq, hitTest_sentinel] at h
      exact Bool.false_ne_true h
  have heq : ui.getTouchscreenValues s1 s2 = ui.getReading s2 := by
    rcases compareReadings_cases ui.tolerance (ui.getReading s1) (ui.getReading s2) with hc | hc
    · exact hc
    · exact absurd hc hne
  rw [heq] at hne
  obtain ⟨hb, hd⟩ := getReading_ne_sentinel ui s2 hne
  have hdiv := (degenerate_eq_false_iff ui).mp hd
  have hrange : (ui.getReading s2).1 ≤ 320 ∧ (ui.getReading s2).2 ≤ 240 := by
    rw [show s2 = (s2.1, s2.2) from rfl, getReading_of_inside ui _ _ hb hd]
    exact screenRatios_le _ _ _ _ (dU0_isU16 ..) (dU1_isU16 ..) (dV0_isU16 ..) (dV1_isU16 ..)
  refine ⟨⟨?_, ?_, ?_, ?_⟩, hd, (outOfBounds_eq_false_iff ui _ _).mp hb, heq, ?_, ?_⟩
  · intro e; apply hdiv.1; rw [e]; exact sub32_self _
  · intro e; apply hdiv.2.1; rw [e]; exact sub32_self _
  · intro e; apply hdiv.2.2.1; rw [e]; exact sub32_self _
  · intro e; apply hdiv.2.2.2; rw [e]; exact sub32_self _
  · rw [heq]; exact hrange.1
  · rw [heq]; exact hrange.2

/-- C15, at the example calibration with the raw samples (500,500) and
(505,500): the read is `(162, 120)`, the mapping of the second sample. -/
theorem getTouchscreenValues_reported_witness :
    exampleUI.getTouchscreenValues (500, 500) (505, 500) = (162, 120) ∧
    exampleUI.getTouchscreenValues (500, 500) (505, 500) = exampleUI.getReading (505, 500) ∧
    exampleUI.degenerate = false :=
  ⟨by decide,
   (getTouchscreenValues_reported exampleUI (500, 500) (505, 500) 0 0 0 0
      (Or.inl (by decide))).2.2.2.1,
   (getTouchscreenValues_reported exampleUI (500, 500) (505, 500) 0 0 0 0
      (Or.inl (by decide))).2.1⟩

/-- C16: a first reading of `(0, 0)` does not block acceptance.  At the
calibration (100,100),(100,900),(900,900),(900,100) the first raw sample
(50,50) is outside the bounding box and maps to `(0, 0)`, the second raw
sample (110,100) maps to `(4, 0)`, within 4 units of the origin on both axes,
and `getTouchscreenValues` returns `(4, 0)`, which is not the sentinel. -/
theorem getTouchscreenValues_after_sentinel :
    ∃ (ui : MindsensorsUI) (s1 s2 : Nat × Nat),
      ui.outOfBounds s1.1 s1.2 = true ∧ ui.getReading s1 = (0, 0) ∧
      (ui.getReading s2).1 ≤ 4 ∧ (ui.getReading s2).2 ≤ 4 ∧
      ui.getTouchscreenValues s1 s2 = (4, 0) ∧ ui.getTouchscreenValues s1 s2 ≠ (0, 0) ∧
      ui.isTouched s1 s2 = true :=
  ⟨exampleUI, (50, 50), (110, 100), by decide⟩

end EVShield

namespace EVShield

/-! ### The numerator of `distanceToLine` inside the `int` range -/

theorem lineNumerator_eq_wrap_exact (x0 y0 x1 y1 x2 y2 : Nat) :
    lineNumerator x0 y0 x1 y1 x2 y2 = wrapInt32 (exactNumerator x0 y0 x1 y1 x2 y2) :=
  lineNumerator_eq_wrap x0 y0 x1 y1 x2 y2

theorem abs32_lineNumerator (x0 y0 x1 y1 x2 y2 n : Nat) (hn : n < 2147483648)
    (h : exactNumerator x0 y0 x1 y1 x2 y2 = (n : Int) ∨
         exactNumerator x0 y0 x1 y1 x2 y2 = -(n : Int)) :
    abs32 (lineNumerator x0 y0 x1 y1 x2 y2) = (n : Int) := by
  rw [lineNumerator_eq_wrap_exact]
  generalize exactNumerator x0 y0 x1 y1 x2 y2 = e at h
  have he : wrapInt32 e = e := by
    apply wrapInt32_of_inRange <;> omega
  rw [he]
  unfold abs32
  have habs : ((e.natAbs : Nat) : Int) = (n : Int) := by omega
  rw [habs]
  apply wrapInt32_of_inRange <;> omega

end EVShield

namespace EVShield

/-! ### Overflow of the numerator, and the truncated intermediates -/

/-- C12, failing input: for the point (45000,25000) and the line through (0,0)
and (0,50000), all `uint16_t`, the exact numerator is 2250000000; the `int`
product `(y2-y1)*x0 = 50000*45000` leaves the `int` range and wraps to
-2044967296, the numerator evaluates to -2044967296, and `distanceToLine`
divides 2044967296, not 2250000000, by the square root. -/
theorem lineNumerator_overflow :
    (IsU16 45000 ∧ IsU16 25000 ∧ IsU16 50000) ∧
    exactNumerator 45000 25000 0 0 0 50000 = 2250000000 ∧
    mul32 (sub32 50000 0) 45000 = -2044967296 ∧
    lineNumerator 45000 25000 0 0 0 50000 = -2044967296 ∧
    (distanceToLine 45000 25000 0 0 0 50000).num = 2044967296 ∧
    (distanceToLine 45000 25000 0 0 0 50000).num ≠
      ((exactNumerator 45000 25000 0 0 0 50000).natAbs : Int) := by
  decide

/-- C9, failing input: at the axis-aligned calibration (0,0),(0,50000),
(50000,50000),(50000,0) and the raw sample (45000,25000), whose closed-form
intermediates 288, 32, 120, 120 fit in 16 bits, `getReading` stores
`dU0 = 261` and returns `(285, 120)`, while the closed form of the claim is
`(288, 120)`.  The centre sample of the example calibration does map to
`(160, 120)`. -/
theorem getReading_closed_form_overflow :
    wideUI.dU0 45000 25000 = 261 ∧ wideUI.dU1 45000 25000 = 32 ∧
    wideUI.dV0 45000 25000 = 120 ∧ wideUI.dV1 45000 25000 = 120 ∧
    wideUI.getReading (45000, 25000) = (285, 120) ∧
    truncatedReading 0 0 50000 50000 (45000, 25000) = (288, 120) ∧
    exampleUI.getReading (500, 500) = (160, 120) := by
  decide

/-- C14, failing input: at the axis-aligned calibration (0,0),(0,65535),
(65535,65535),(65535,0), which meets `320(c-a) ≤ 65535(d-b)` and
`240(d-b) ≤ 65535(c-a)`, the raw samples (32767,30000) and (65535,30000) lie
inside the bounding box with `32767 ≤ 65535`, and `getReading` returns screenX
159 for the first and 0 for the second: the numerator `65535 * 65535` of the
second wraps to -131071. -/
theorem getReading_monotone_overflow :
    (320 * (65535 - 0) ≤ 65535 * (65535 - 0) ∧ 240 * (65535 - 0) ≤ 65535 * (65535 - 0)) ∧
    fullUI.outOfBounds 32767 30000 = false ∧ fullUI.outOfBounds 65535 30000 = false ∧
    lineNumerator 65535 30000 0 0 0 65535 = -131071 ∧
    fullUI.getReading (32767, 30000) = (159, 120) ∧
    fullUI.getReading (65535, 30000) = (0, 0) ∧
    ¬ ((fullUI.getReading (32767, 30000)).1 ≤ (fullUI.getReading (65535, 30000)).1) := by
  decide

end EVShield
